import Mathlib

/-!
Shallow embedding of the vulneromics data-loading, merging, filtering and
summarization pipeline (src/vulneromics/config.py, src/vulneromics/data_loader.py,
src/vulneromics/filters.py, src/app.py).

A pandas DataFrame is modelled as a list of column names plus a list of rows,
each row an association list from column name to a nullable cell value
(`none` models NaN / pd.NA).  Numeric values are rationals; on-disk sources
(CSV / Parquet) are modelled as already-materialized `DF` values, since the
claims are about the in-memory shaping logic, not file parsing.  Functions that
raise typed errors in the source (DataSchemaError) return `Option`, with `none`
modelling the raised error.
-/

namespace Vulneromics

/-- A scalar value stored in a table cell: a string or a rational number. -/
inductive Val
  | str (s : String)
  | num (q : ℚ)
deriving DecidableEq, Repr

/-- A nullable cell: `none` models pandas NaN / pd.NA. -/
abbrev Cell := Option Val

/-- One table row: an association list from column name to cell value. -/
abbrev RowT := List (String × Cell)

/-- A data frame: an ordered list of column names and a list of rows. -/
structure DF where
  cols : List String
  rows : List RowT
deriving DecidableEq, Repr

/-- Look a column up in a row; a missing key reads as null. -/
def rowGet (r : RowT) (c : String) : Cell :=
  (List.lookup c r).getD none

/-- pandas `DataFrame.empty`: true when either axis has length zero. -/
def DF.isEmpty (df : DF) : Bool :=
  df.rows.isEmpty || df.cols.isEmpty

/-- Column projection `df[cs]` (also models reading only selected columns). -/
def selectCols (df : DF) (cs : List String) : DF :=
  { cols := cs, rows := df.rows.map (fun r => cs.map (fun c => (c, rowGet r c))) }

/-- `df.rename(columns=...)` with the mapping given as an association list. -/
def renameCols (df : DF) (m : List (String × String)) : DF :=
  { cols := df.cols.map (fun c => (List.lookup c m).getD c),
    rows := df.rows.map (fun r => r.map (fun p => ((List.lookup p.1 m).getD p.1, p.2))) }

/-- `df[c] = pd.NA`: overwrite the column with nulls when it exists,
otherwise append a column filled with nulls. -/
def addNullCol (df : DF) (c : String) : DF :=
  if df.cols.contains c then
    { cols := df.cols,
      rows := df.rows.map (fun r =>
        r.map (fun p => (p.1, if p.1 = c then (none : Cell) else p.2))) }
  else
    { cols := df.cols ++ [c], rows := df.rows.map (fun r => r ++ [(c, (none : Cell))]) }

/-- `df.dropna(subset=cs)`: keep rows with no null among the listed columns. -/
def dropnaSubset (df : DF) (cs : List String) : DF :=
  { df with rows := df.rows.filter (fun r => cs.all (fun c => (rowGet r c).isSome)) }

/-- Numeric view of a cell (`none` for null or non-numeric content). -/
def asNum : Cell → Option ℚ
  | some (Val.num q) => some q
  | _ => none

/-- `Series.isin(xs)` for a list of strings: null and non-string cells test false. -/
def cellIsin (c : Cell) (xs : List String) : Bool :=
  match c with
  | some (Val.str s) => xs.contains s
  | _ => false

/-- `Series.fillna(float("-inf"))` viewed in `WithBot ℚ`: null becomes bottom. -/
def fillnaNegInf (c : Cell) : WithBot ℚ :=
  match c with
  | some (Val.num q) => (q : WithBot ℚ)
  | _ => ⊥

/-- Arithmetic mean of a list of rationals, null when the list is empty
(pandas mean skips NaN and yields NaN on an empty group). -/
def meanOpt (qs : List ℚ) : Cell :=
  if qs.isEmpty then none else some (Val.num (qs.sum / qs.length))

/-! ### config.py constants -/

/-- `DEFAULT_REGION_COLUMN_CANDIDATES` from config.py. -/
def DEFAULT_REGION_COLUMN_CANDIDATES : List String :=
  ["parcellation_substructure", "parcellation_structure", "structure_acronym", "brain_region"]

/-- `DEFAULT_CLASS_COLUMN_CANDIDATES` from config.py. -/
def DEFAULT_CLASS_COLUMN_CANDIDATES : List String :=
  ["class", "cell_class", "supertype"]

/-- `DEFAULT_COORD_COLUMN_CANDIDATES` from config.py: declared coordinate triplets. -/
def DEFAULT_COORD_COLUMN_CANDIDATES : List (String × String × String) :=
  [("x", "y", "z"), ("x_ccf", "y_ccf", "z_ccf"), ("ccf_x", "ccf_y", "ccf_z")]

/-- `DEFAULT_CELL_ID_CANDIDATES` from config.py. -/
def DEFAULT_CELL_ID_CANDIDATES : List String :=
  ["cell_label", "cell_id", "cell"]

/-! ### data_loader.py -/

/-- `_pick_first_available`: first candidate present among the columns;
`none` models the raised DataSchemaError. -/
def pickFirstAvailable (columns : List String) (candidates : List String) : Option String :=
  candidates.find? (fun name => columns.contains name)

/-- `_pick_coord_columns`: first declared triplet all of whose three names are
present; `none` models the raised DataSchemaError. -/
def pickCoordColumns (columns : List String) : Option (String × String × String) :=
  DEFAULT_COORD_COLUMN_CANDIDATES.find?
    (fun t => columns.contains t.1 && columns.contains t.2.1 && columns.contains t.2.2)

/-- `load_metadata`: resolve cell id, region, class and a coordinate triplet,
project to those columns, rename to the canonical schema, and drop rows with a
null cell id or coordinate. -/
def load_metadata (src : DF) : Option DF :=
  let columns := src.cols
  match pickFirstAvailable columns DEFAULT_CELL_ID_CANDIDATES with
  | none => none
  | some cellId =>
  match pickFirstAvailable columns DEFAULT_REGION_COLUMN_CANDIDATES with
  | none => none
  | some region =>
  match pickFirstAvailable columns DEFAULT_CLASS_COLUMN_CANDIDATES with
  | none => none
  | some cellClass =>
  match pickCoordColumns columns with
  | none => none
  | some xyz =>
    let selected := [cellId, region, cellClass, xyz.1, xyz.2.1, xyz.2.2]
    let df := renameCols (selectCols src selected)
      [(cellId, "cell_id"), (region, "region"), (cellClass, "cell_class"),
       (xyz.1, "x"), (xyz.2.1, "y"), (xyz.2.2, "z")]
    some (dropnaSubset df ["cell_id", "x", "y", "z"])

/-- `tuple(sorted(set(g for g in genes if g)))`: drop empty names, deduplicate,
sort ascending. -/
def normalizeGenes (genes : List String) : List String :=
  List.insertionSort (· ≤ ·) ((genes.filter (fun g => g ≠ "")).dedup)

/-- The long-format detection test:
`{"cell_id", "gene", "expression"}.issubset(columns)`. -/
def isLongFormat (columns : List String) : Bool :=
  columns.contains "cell_id" && columns.contains "gene" && columns.contains "expression"

/-- The pushed-down read filter `ds.field("gene").isin(list(genes))`:
keep source rows whose gene cell is a string in the requested list. -/
def longFilter (src : DF) (genes : List String) : List RowT :=
  src.rows.filter (fun r =>
    match rowGet r "gene" with
    | some (Val.str g) => genes.contains g
    | _ => false)

/-- The pandas sort key on cells: strings lexicographic, numbers by value,
nulls last. -/
def cellLeb : Cell → Cell → Bool
  | some (Val.str a), some (Val.str b) => a ≤ b
  | some (Val.num a), some (Val.num b) => a ≤ b
  | some (Val.str _), some (Val.num _) => true
  | some (Val.num _), some (Val.str _) => false
  | some _, none => true
  | none, none => true
  | none, some _ => false

/-- Insert a cell into a list sorted by the pandas sort key. -/
def insertCellSorted (c : Cell) : List Cell → List Cell
  | [] => [c]
  | x :: xs => if cellLeb c x then c :: x :: xs else x :: insertCellSorted c xs

/-- Sort cells by the pandas sort key (insertion sort). -/
def sortCells : List Cell → List Cell
  | [] => []
  | x :: xs => insertCellSorted x (sortCells xs)

/-- Whether a row contributes a non-null (cell, gene) aggregate to the pivot:
groupby drops rows with a null cell-id or gene key, and a row with a null (or
non-numeric) expression value contributes nothing to its group's mean. -/
def aggRow (r : RowT) : Bool :=
  (rowGet r "cell_id").isSome &&
  ((match rowGet r "gene" with
    | some (Val.str _) => true
    | _ => false) &&
  (asNum (rowGet r "expression")).isSome)

/-- The rows that contribute a non-null aggregate: with `pivot_table`'s default
`dropna=True`, only these rows induce surviving index entries and columns
(all-NaN aggregates are dropped before unstacking, and all-NaN columns after). -/
def aggRows (rows : List RowT) : List RowT :=
  rows.filter aggRow

/-- The pivot index: distinct cell ids with at least one non-null aggregate,
sorted (`pivot_table` groups by `cell_id`, sorts, and with `dropna=True` a
cell whose every aggregate is NaN gets no row). -/
def pivotCellIds (rows : List RowT) : List Cell :=
  sortCells (((aggRows rows).map (fun r => rowGet r "cell_id")).dedup)

/-- The pivot columns: distinct gene names with at least one non-null
aggregate, sorted (with `dropna=True` a gene whose entries would all be NaN
gets no column). -/
def pivotGenes (rows : List RowT) : List String :=
  List.insertionSort (· ≤ ·)
    (((aggRows rows).filterMap (fun r =>
      match rowGet r "gene" with
      | some (Val.str g) => some g
      | _ => none)).dedup)

/-- The non-null expression values recorded for one (cell, gene) pair. -/
def valuesFor (rows : List RowT) (cid : Cell) (g : String) : List ℚ :=
  (rows.filter (fun r =>
    decide (rowGet r "cell_id" = cid) && decide (rowGet r "gene" = some (Val.str g)))).filterMap
    (fun r => asNum (rowGet r "expression"))

/-- `pivot_table(index="cell_id", columns="gene", values="expression",
aggfunc="mean").reset_index()` with the default `dropna=True`: one row per
distinct cell id and one column per distinct gene among the contributing rows
(an all-NaN cell or gene is dropped), entries the mean of the matching
non-null expression values, NaN when the pair has none. -/
def pivotMean (rows : List RowT) : DF :=
  let cids := pivotCellIds rows
  let gs := pivotGenes rows
  { cols := "cell_id" :: gs,
    rows := cids.map (fun cid =>
      ("cell_id", cid) :: gs.map (fun g => (g, meanOpt (valuesFor rows cid g)))) }

/-- The long-format block of `load_expression_subset` (lines 136-152):
filtered read, empty check, pivot to wide. -/
def longPath (src : DF) (genes : List String) : DF :=
  let expr := longFilter src genes
  if expr.isEmpty then { cols := "cell_id" :: genes, rows := [] }
  else pivotMean expr

/-- The wide-format block of `load_expression_subset` (lines 154-167):
resolve the cell-id column, read the intersected gene columns, pad requested
genes absent from the source with null columns, and reorder; `none` models the
DataSchemaError raised when no cell-id candidate is present. -/
def widePath (src : DF) (genes : List String) : Option DF :=
  match pickFirstAvailable src.cols DEFAULT_CELL_ID_CANDIDATES with
  | none => none
  | some cellIdCol =>
    let available := genes.filter (fun g => src.cols.contains g)
    if available.isEmpty then some { cols := "cell_id" :: genes, rows := [] }
    else
      let wide := renameCols (selectCols src (cellIdCol :: available)) [(cellIdCol, "cell_id")]
      let missing := genes.filter (fun g => !available.contains g)
      let wide2 := missing.foldl addNullCol wide
      some (selectCols wide2 ("cell_id" :: genes))

/-- `load_expression_subset` after gene normalization: empty-request early
return, then long- or wide-format block by detection on the peeked columns. -/
def loadNormalized (src : DF) (genes : List String) : Option DF :=
  if genes.isEmpty then some { cols := ["cell_id"], rows := [] }
  else if isLongFormat src.cols then some (longPath src genes)
  else widePath src genes

/-- `load_expression_subset`: normalize the requested genes
(`tuple(sorted(set(g for g in genes if g)))`), then dispatch on the detected
layout. -/
def load_expression_subset (src : DF) (genes0 : List String) : Option DF :=
  loadNormalized src (normalizeGenes genes0)

/-! ### app.py merge step -/

/-- `metadata.merge(expression, on="cell_id", how="left")`: every metadata row
appears once per matching expression row, or once with null gene values when
unmatched; expression rows with no metadata match are dropped. -/
def mergeLeft (metadata expression : DF) : DF :=
  let geneCols := expression.cols.filter (fun c => c ≠ "cell_id")
  { cols := metadata.cols ++ geneCols,
    rows := metadata.rows.flatMap (fun m =>
      let hits := expression.rows.filter
        (fun e => decide (rowGet e "cell_id" = rowGet m "cell_id"))
      if hits.isEmpty then
        [m ++ geneCols.map (fun c => (c, (none : Cell)))]
      else
        hits.map (fun e => m ++ geneCols.map (fun c => (c, rowGet e c)))) }

/-- app.py lines 96-98: `merged = metadata`, replaced by the left merge only
when expression was loaded and is non-empty. -/
def appMerged (metadata : DF) (expression : Option DF) : DF :=
  match expression with
  | none => metadata
  | some e => if e.isEmpty then metadata else mergeLeft metadata e

/-! ### filters.py -/

/-- One iteration of the gene-threshold loop in `filter_cells`: when the gene
column exists, keep the rows whose `fillna(-inf)` value is at least the
threshold. -/
def thresholdStep (acc : DF) (gt : String × ℚ) : DF :=
  if acc.cols.contains gt.1 then
    let kept := acc.rows.filter
      (fun r => decide ((gt.2 : WithBot ℚ) ≤ fillnaNegInf (rowGet r gt.1)))
    { acc with rows := kept }
  else acc

/-- `filter_cells`: region allow-set, class allow-set (each skipped when
empty), then one `fillna(-inf) >= threshold` filter per (gene, threshold)
pair whose gene column exists. -/
def filter_cells (df : DF) (regions classes : List String)
    (gene_thresholds : List (String × ℚ)) : DF :=
  let out := df
  let out := if regions.isEmpty then out else
    { out with rows := out.rows.filter (fun r => cellIsin (rowGet r "region") regions) }
  let out := if classes.isEmpty then out else
    { out with rows := out.rows.filter (fun r => cellIsin (rowGet r "cell_class") classes) }
  gene_thresholds.foldl thresholdStep out

/-- `summarize_gene_expression`: intersect the requested genes with the
available columns; when none remain return the empty frame, otherwise group by
the grouping column (null keys kept as their own group), take per-gene means
ignoring nulls, and sort by group key ascending. -/
def summarize_gene_expression (df : DF) (genes : List String) (group_col : String) : DF :=
  let keep := genes.filter (fun g => df.cols.contains g)
  if keep.isEmpty then { cols := [], rows := [] }
  else
    let keys := sortCells ((df.rows.map (fun r => rowGet r group_col)).dedup)
    { cols := group_col :: keep,
      rows := keys.map (fun k =>
        List.cons (group_col, k)
          (keep.map (fun g =>
            (g, meanOpt ((df.rows.filter (fun r => decide (rowGet r group_col = k))).filterMap
              (fun r => asNum (rowGet r g))))))) }

/-- The region clause of `filter_cells` as a row predicate: an empty allow-set
keeps every row. -/
def regionPred (regions : List String) (r : RowT) : Bool :=
  regions.isEmpty || cellIsin (rowGet r "region") regions

/-- The class clause of `filter_cells` as a row predicate: an empty allow-set
keeps every row. -/
def classPred (classes : List String) (r : RowT) : Bool :=
  classes.isEmpty || cellIsin (rowGet r "cell_class") classes

/-- The gene-threshold clause of `filter_cells` as a row predicate: every
(gene, threshold) pair whose gene column exists must pass `fillna(-inf) >=
threshold`. -/
def genePred (cols : List String) (gts : List (String × ℚ)) (r : RowT) : Bool :=
  gts.all (fun gt => !(cols.contains gt.1) ||
    decide ((gt.2 : WithBot ℚ) ≤ fillnaNegInf (rowGet r gt.1)))

/-! ### Concrete tables used in counterexamples and witnesses -/

/-- A long-format source holding a single measurement: (c1, A, 1.0). -/
def exLongOneGene : DF :=
  { cols := ["cell_id", "gene", "expression"],
    rows := [[("cell_id", some (Val.str "c1")), ("gene", some (Val.str "A")),
              ("expression", some (Val.num 1))]] }

/-- A long-format source with a duplicate (c1, GeneA) probe pair valued 2.0
and 4.0. -/
def exLongDup : DF :=
  { cols := ["cell_id", "gene", "expression"],
    rows := [[("cell_id", some (Val.str "c1")), ("gene", some (Val.str "GeneA")),
              ("expression", some (Val.num 2))],
             [("cell_id", some (Val.str "c1")), ("gene", some (Val.str "GeneA")),
              ("expression", some (Val.num 4))]] }

/-- A source whose columns are a cell-id alias (`cell_label`) together with
`gene` and `expression`, holding the measurement (c1, A, 2.0). -/
def exAliasLong : DF :=
  { cols := ["cell_label", "gene", "expression"],
    rows := [[("cell_label", some (Val.str "c1")), ("gene", some (Val.str "A")),
              ("expression", some (Val.num 2))]] }

/-- A one-row canonical metadata table for cell c1. -/
def exMetaOne : DF :=
  { cols := ["cell_id", "region", "cell_class", "x", "y", "z"],
    rows := [[("cell_id", some (Val.str "c1")), ("region", some (Val.str "VIS")),
              ("cell_class", some (Val.str "Glut")), ("x", some (Val.num 1)),
              ("y", some (Val.num 2)), ("z", some (Val.num 3))]] }

/-- A wide source listing cell c1 on two separate rows. -/
def exWideDup : DF :=
  { cols := ["cell_id", "G"],
    rows := [[("cell_id", some (Val.str "c1")), ("G", some (Val.num 1))],
             [("cell_id", some (Val.str "c1")), ("G", some (Val.num 2))]] }

/-- The expression table `load_expression_subset exWideDup ["G"]` produces:
the duplicate cell id is kept on two rows. -/
def exWideDupLoaded : DF :=
  { cols := ["cell_id", "G"],
    rows := [[("cell_id", some (Val.str "c1")), ("G", some (Val.num 1))],
             [("cell_id", some (Val.str "c1")), ("G", some (Val.num 2))]] }

/-- A wide source with a single row for cell c1 and gene column G. -/
def exWideOne : DF :=
  { cols := ["cell_id", "G"],
    rows := [[("cell_id", some (Val.str "c1")), ("G", some (Val.num 5))]] }

/-- A wide source whose only gene column is H (no requested gene present when
G is requested). -/
def exWideOther : DF :=
  { cols := ["cell_id", "H"],
    rows := [[("cell_id", some (Val.str "c1")), ("H", some (Val.num 1))]] }

/-- A metadata source whose columns mix names from different coordinate
triplets: x and y from the first triplet, ccf_z from the third. -/
def exMixedCoords : DF :=
  { cols := ["cell_label", "structure_acronym", "class", "x", "y", "ccf_z"], rows := [] }

/-- A merged-shape row for cell class Glut in region VIS with G measured at 5. -/
def exThreshRow1 : RowT :=
  [("region", some (Val.str "VIS")), ("cell_class", some (Val.str "Glut")),
   ("G", some (Val.num 5))]

/-- A merged-shape row for cell class GABA in region MOp with G unmeasured. -/
def exThreshRow2 : RowT :=
  [("region", some (Val.str "MOp")), ("cell_class", some (Val.str "GABA")),
   ("G", (none : Cell))]

/-- A merged-shape table with a numeric gene column G present on one row and
null on the other. -/
def exThresh : DF :=
  { cols := ["region", "cell_class", "G"], rows := [exThreshRow1, exThreshRow2] }

/-- The row `load_expression_subset exWideOther ["G", "H"]` produces for c1:
G padded with null, H read from the source. -/
def exWideOtherLoadedRow : RowT :=
  [("cell_id", some (Val.str "c1")), ("G", (none : Cell)), ("H", some (Val.num 1))]

/-- The table `load_expression_subset exWideOther ["G", "H"]` produces. -/
def exWideOtherLoaded : DF :=
  { cols := ["cell_id", "G", "H"], rows := [exWideOtherLoadedRow] }

/-- The pivoted row `load_expression_subset exLongDup ["GeneA"]` produces:
the duplicate (c1, GeneA) probes 2.0 and 4.0 average to 3.0. -/
def exLongDupLoadedRow : RowT :=
  [("cell_id", some (Val.str "c1")), ("GeneA", some (Val.num 3))]

/-- The table `load_expression_subset exLongDup ["GeneA"]` produces. -/
def exLongDupLoaded : DF :=
  { cols := ["cell_id", "GeneA"], rows := [exLongDupLoadedRow] }

/-- Structural invariant of materialized frames: each row's keys are exactly
the frame's columns, in order. -/
def keysAligned (df : DF) : Prop :=
  ∀ r ∈ df.rows, r.map Prod.fst = df.cols

/-! ### Helper lemmas -/

theorem insertCellSorted_perm (c : Cell) (l : List Cell) :
    (insertCellSorted c l).Perm (c :: l) := by
  induction l with
  | nil => simp [insertCellSorted]
  | cons x xs ih =>
    rw [insertCellSorted]
    split
    · exact List.Perm.refl _
    · exact (ih.cons x).trans (List.Perm.swap c x xs)

theorem sortCells_perm (l : List Cell) : (sortCells l).Perm l := by
  induction l with
  | nil => simp [sortCells]
  | cons x xs ih =>
    exact (insertCellSorted_perm x (sortCells xs)).trans (ih.cons x)

theorem mem_normalizeGenes {g : String} {gs : List String} :
    g ∈ normalizeGenes gs ↔ g ∈ gs ∧ g ≠ "" := by
  unfold normalizeGenes
  rw [(List.perm_insertionSort _ _).mem_iff, List.mem_dedup, List.mem_filter]
  simp

theorem nodup_normalizeGenes (gs : List String) : (normalizeGenes gs).Nodup := by
  unfold normalizeGenes
  exact ((List.perm_insertionSort _ _).nodup_iff).mpr (List.nodup_dedup _)

theorem sorted_normalizeGenes (gs : List String) :
    List.Sorted (· ≤ ·) (normalizeGenes gs) :=
  List.sorted_insertionSort _ _

theorem normalizeGenes_congr {g1 g2 : List String}
    (h : ∀ g, g ≠ "" → (g ∈ g1 ↔ g ∈ g2)) :
    normalizeGenes g1 = normalizeGenes g2 := by
  apply List.eq_of_perm_of_sorted _ (sorted_normalizeGenes g1) (sorted_normalizeGenes g2)
  rw [List.perm_ext_iff_of_nodup (nodup_normalizeGenes g1) (nodup_normalizeGenes g2)]
  intro g
  rw [mem_normalizeGenes, mem_normalizeGenes]
  constructor
  · rintro ⟨hm, hne⟩; exact ⟨(h g hne).mp hm, hne⟩
  · rintro ⟨hm, hne⟩; exact ⟨(h g hne).mpr hm, hne⟩

theorem lookup_map_pair (f : String → Cell) (cs : List String) (g : String) :
    List.lookup g (cs.map (fun c => (c, f c))) = if g ∈ cs then some (f g) else none := by
  induction cs with
  | nil => simp [List.lookup]
  | cons c cs ih =>
    by_cases hgc : g = c
    · subst hgc; simp [List.lookup]
    · have hbeq : (g == c) = false := beq_eq_false_iff_ne.mpr hgc
      simp [List.lookup, hbeq, ih, List.mem_cons, hgc]

theorem rowGet_selectRow (r : RowT) (cs : List String) (g : String) :
    rowGet (cs.map (fun c => (c, rowGet r c))) g = if g ∈ cs then rowGet r g else none := by
  rw [rowGet, lookup_map_pair (fun c => rowGet r c) cs g]
  split <;> simp

theorem sorted_pivotGenes (rows : List RowT) :
    List.Sorted (· ≤ ·) (pivotGenes rows) :=
  List.sorted_insertionSort _ _

theorem nodup_pivotGenes (rows : List RowT) : (pivotGenes rows).Nodup := by
  unfold pivotGenes
  exact ((List.perm_insertionSort _ _).nodup_iff).mpr (List.nodup_dedup _)

theorem mem_pivotGenes {rows : List RowT} {g : String} :
    g ∈ pivotGenes rows ↔
      ∃ r ∈ rows, aggRow r = true ∧ rowGet r "gene" = some (Val.str g) := by
  unfold pivotGenes aggRows
  rw [(List.perm_insertionSort _ _).mem_iff, List.mem_dedup, List.mem_filterMap]
  constructor
  · rintro ⟨r, hr, hm⟩
    rw [List.mem_filter] at hr
    refine ⟨r, hr.1, hr.2, ?_⟩
    revert hm
    match h : rowGet r "gene" with
    | some (Val.str s) => intro hm; cases hm; rfl
    | some (Val.num _) => intro hm; cases hm
    | none => intro hm; cases hm
  · rintro ⟨r, hr, hagg, hm⟩
    exact ⟨r, List.mem_filter.mpr ⟨hr, hagg⟩, by rw [hm]⟩

theorem nodup_pivotCellIds (rows : List RowT) : (pivotCellIds rows).Nodup := by
  unfold pivotCellIds
  exact ((sortCells_perm _).nodup_iff).mpr (List.nodup_dedup _)

theorem mem_pivotCellIds {rows : List RowT} {c : Cell} :
    c ∈ pivotCellIds rows ↔
      ∃ r ∈ rows, aggRow r = true ∧ rowGet r "cell_id" = c := by
  unfold pivotCellIds aggRows
  rw [(sortCells_perm _).mem_iff, List.mem_dedup, List.mem_map]
  constructor
  · rintro ⟨r, hr, hc⟩
    rw [List.mem_filter] at hr
    exact ⟨r, hr.1, hr.2, hc⟩
  · rintro ⟨r, hr, hagg, hc⟩
    exact ⟨r, List.mem_filter.mpr ⟨hr, hagg⟩, hc⟩

theorem longFilter_mem {src : DF} {genes : List String} {r : RowT}
    (h : r ∈ longFilter src genes) :
    r ∈ src.rows ∧ ∃ g, rowGet r "gene" = some (Val.str g) ∧ g ∈ genes := by
  unfold longFilter at h
  rw [List.mem_filter] at h
  refine ⟨h.1, ?_⟩
  have hp := h.2
  revert hp
  match hg : rowGet r "gene" with
  | some (Val.str s) =>
    intro hp
    exact ⟨s, rfl, by simpa using hp⟩
  | some (Val.num _) => intro hp; cases hp
  | none => intro hp; cases hp

theorem le_fillnaNegInf_iff {q : ℚ} {c : Cell} :
    (q : WithBot ℚ) ≤ fillnaNegInf c ↔ ∃ v : ℚ, c = some (Val.num v) ∧ q ≤ v := by
  match c with
  | some (Val.num v) =>
    simp only [fillnaNegInf, WithBot.coe_le_coe]
    constructor
    · intro h; exact ⟨v, rfl, h⟩
    · rintro ⟨w, hw, h⟩; cases hw; exact h
  | some (Val.str s) =>
    simp only [fillnaNegInf]
    constructor
    · intro h; exact absurd h (by simp)
    · rintro ⟨w, hw, h⟩; cases hw
  | none =>
    simp only [fillnaNegInf]
    constructor
    · intro h; exact absurd h (by simp)
    · rintro ⟨w, hw, h⟩; cases hw

theorem keysAligned_selectCols (df : DF) (cs : List String) :
    keysAligned (selectCols df cs) := by
  intro r hr
  simp only [selectCols, List.mem_map] at hr
  obtain ⟨r0, _, rfl⟩ := hr
  simp only [selectCols, List.map_map]
  exact (List.map_congr_left fun c _ => rfl).trans (List.map_id cs)

theorem keysAligned_renameCols {df : DF} (m : List (String × String))
    (h : keysAligned df) : keysAligned (renameCols df m) := by
  intro r hr
  simp only [renameCols, List.mem_map] at hr
  obtain ⟨r0, hr0, rfl⟩ := hr
  simp only [renameCols, List.map_map]
  rw [← h r0 hr0, List.map_map]
  rfl

theorem keysAligned_addNullCol {df : DF} (c : String)
    (h : keysAligned df) : keysAligned (addNullCol df c) := by
  unfold addNullCol
  split
  · intro r hr
    simp only [List.mem_map] at hr
    obtain ⟨r0, hr0, rfl⟩ := hr
    rw [List.map_map, ← h r0 hr0]
    rfl
  · intro r hr
    simp only [List.mem_map] at hr
    obtain ⟨r0, hr0, rfl⟩ := hr
    simp [← h r0 hr0]

theorem lookup_map_snd (r : RowT) (f : String → Cell → Cell) (g : String) :
    List.lookup g (r.map (fun p => (p.1, f p.1 p.2))) = (List.lookup g r).map (f g) := by
  induction r with
  | nil => rfl
  | cons p r ih =>
    by_cases hgp : g = p.1
    · subst hgp
      simp [List.lookup]
    · have hbeq : (g == p.1) = false := beq_eq_false_iff_ne.mpr hgp
      simpa [List.lookup, hbeq] using ih

theorem rowGet_overwriteRow (r : RowT) (c : String) :
    rowGet (r.map (fun p => (p.1, if p.1 = c then (none : Cell) else p.2))) c = none := by
  rw [rowGet, lookup_map_snd r (fun k v => if k = c then (none : Cell) else v) c]
  cases List.lookup c r <;> simp

theorem rowGet_overwriteRow_ne (r : RowT) {c g : String} (hg : g ≠ c) :
    rowGet (r.map (fun p => (p.1, if p.1 = c then (none : Cell) else p.2))) g = rowGet r g := by
  rw [rowGet, lookup_map_snd r (fun k v => if k = c then (none : Cell) else v) g, rowGet]
  cases List.lookup g r <;> simp [hg]

theorem rowGet_addNullCol_self {df : DF} {c : String} (hk : keysAligned df) :
    ∀ r ∈ (addNullCol df c).rows, rowGet r c = none := by
  unfold addNullCol
  split
  · intro r hr
    simp only [List.mem_map] at hr
    obtain ⟨r0, _, rfl⟩ := hr
    exact rowGet_overwriteRow r0 c
  · next hcontains =>
    intro r hr
    simp only [List.mem_map] at hr
    obtain ⟨r0, hr0, rfl⟩ := hr
    have hcmem : c ∉ df.cols := by simpa using hcontains
    have hnotkey : List.lookup c r0 = none := by
      rw [List.lookup_eq_none_iff]
      intro p hp
      have hkeys := hk r0 hr0
      have hmem : p.1 ∈ df.cols := by
        rw [← hkeys]; exact List.mem_map_of_mem Prod.fst hp
      have hne : c ≠ p.1 := fun h => hcmem (h ▸ hmem)
      simpa using hne
    rw [rowGet, List.lookup_append, hnotkey]
    simp [List.lookup]

theorem rowGet_addNullCol_mono {df : DF} {g : String} (c : String)
    (h : ∀ r ∈ df.rows, rowGet r g = none) :
    ∀ r ∈ (addNullCol df c).rows, rowGet r g = none := by
  unfold addNullCol
  split
  · intro r hr
    simp only [List.mem_map] at hr
    obtain ⟨r0, hr0, rfl⟩ := hr
    by_cases hgc : g = c
    · subst hgc; exact rowGet_overwriteRow r0 g
    · rw [rowGet_overwriteRow_ne r0 hgc]; exact h r0 hr0
  · intro r hr
    simp only [List.mem_map] at hr
    obtain ⟨r0, hr0, rfl⟩ := hr
    have h0 := h r0 hr0
    rw [rowGet, List.lookup_append]
    rw [rowGet] at h0
    cases hl : List.lookup g r0 with
    | some v =>
      rw [hl] at h0
      simp at h0
      simp [hl, h0]
    | none =>
      by_cases hgc : g = c
      · simp [hl, List.lookup, hgc]
      · have hbeq : (g == c) = false := beq_eq_false_iff_ne.mpr hgc
        simp [hl, List.lookup, hbeq]

theorem foldl_addNullCol_keysAligned {ms : List String} {df : DF}
    (hk : keysAligned df) : keysAligned (ms.foldl addNullCol df) := by
  induction ms generalizing df with
  | nil => exact hk
  | cons m ms ih => exact ih (keysAligned_addNullCol m hk)

theorem foldl_addNullCol_mono {ms : List String} {df : DF} {g : String}
    (h : ∀ r ∈ df.rows, rowGet r g = none) :
    ∀ r ∈ (ms.foldl addNullCol df).rows, rowGet r g = none := by
  induction ms generalizing df with
  | nil => exact h
  | cons m ms ih => exact ih (rowGet_addNullCol_mono m h)

theorem foldl_addNullCol_null {ms : List String} {df : DF} {g : String}
    (hk : keysAligned df) (hg : g ∈ ms) :
    ∀ r ∈ (ms.foldl addNullCol df).rows, rowGet r g = none := by
  induction ms generalizing df with
  | nil => cases hg
  | cons m ms ih =>
    rcases List.mem_cons.mp hg with hgm | hgm
    · subst hgm
      rw [List.foldl_cons]
      exact foldl_addNullCol_mono (rowGet_addNullCol_self hk)
    · rw [List.foldl_cons]
      exact ih (keysAligned_addNullCol m hk) hgm

theorem thresholdStep_cols (acc : DF) (gt : String × ℚ) :
    (thresholdStep acc gt).cols = acc.cols := by
  unfold thresholdStep
  split <;> rfl

theorem foldl_thresholdStep_cols (gts : List (String × ℚ)) (acc : DF) :
    (gts.foldl thresholdStep acc).cols = acc.cols := by
  induction gts generalizing acc with
  | nil => rfl
  | cons gt gts ih => rw [List.foldl_cons, ih, thresholdStep_cols]

theorem foldl_thresholdStep_rows (gts : List (String × ℚ)) (acc : DF) :
    (gts.foldl thresholdStep acc).rows = acc.rows.filter (fun r =>
      gts.all (fun gt => !(acc.cols.contains gt.1) ||
        decide ((gt.2 : WithBot ℚ) ≤ fillnaNegInf (rowGet r gt.1)))) := by
  induction gts generalizing acc with
  | nil => simp
  | cons gt gts ih =>
    rw [List.foldl_cons, ih, thresholdStep_cols]
    unfold thresholdStep
    split
    · next hcont =>
      simp only [hcont, List.filter_filter, List.all_cons, Bool.not_true, Bool.false_or]
      apply List.filter_congr
      intro r _
      exact Bool.and_comm _ _
    · next hcont =>
      have hmem : gt.1 ∉ acc.cols := by
        simpa using fun h => hcont (by simpa using h)
      simp [List.all_cons, hmem]

theorem length_flatMap_ones {α : Type} {β : Type} (l : List α) (f : α → List β)
    (h : ∀ x ∈ l, (f x).length = 1) : (l.flatMap f).length = l.length := by
  induction l with
  | nil => rfl
  | cons x l ih =>
    rw [List.flatMap_cons, List.length_append, h x (List.mem_cons_self x l),
      ih (fun y hy => h y (List.mem_cons_of_mem x hy)), List.length_cons]
    omega

theorem rowGet_append_pairs (m : RowT) (gs : List String) (f : String → Cell) {k : String}
    (hk : k ∉ gs) : rowGet (m ++ gs.map (fun c => (c, f c))) k = rowGet m k := by
  rw [rowGet, List.lookup_append, lookup_map_pair, if_neg hk, rowGet]
  cases List.lookup k m <;> rfl

theorem pivotGenes_longFilter_subset (src : DF) (genes : List String) :
    pivotGenes (longFilter src genes) ⊆ genes := by
  intro g hg
  obtain ⟨r, hr, -, hrg⟩ := mem_pivotGenes.mp hg
  obtain ⟨-, g2, hg2, hg2mem⟩ := longFilter_mem hr
  rw [hrg] at hg2
  cases hg2
  exact hg2mem

theorem widePath_some_cols {src df : DF} {genes : List String}
    (h : widePath src genes = some df) : df.cols = "cell_id" :: genes := by
  unfold widePath at h
  cases hpick : pickFirstAvailable src.cols DEFAULT_CELL_ID_CANDIDATES with
  | none => rw [hpick] at h; cases h
  | some cid =>
    rw [hpick] at h
    dsimp only at h
    by_cases hav : (genes.filter (fun g => src.cols.contains g)).isEmpty = true
    · rw [if_pos hav] at h
      cases h
      rfl
    · rw [if_neg hav] at h
      cases h
      rfl

theorem widePath_absent_null {src df : DF} {genes : List String}
    (h : widePath src genes = some df) (g : String) (hg : g ∈ genes)
    (hgabs : g ∉ src.cols) : ∀ r ∈ df.rows, rowGet r g = none := by
  unfold widePath at h
  cases hpick : pickFirstAvailable src.cols DEFAULT_CELL_ID_CANDIDATES with
  | none => rw [hpick] at h; cases h
  | some cid =>
    rw [hpick] at h
    dsimp only at h
    by_cases hav : (genes.filter (fun g => src.cols.contains g)).isEmpty = true
    · rw [if_pos hav] at h
      cases h
      intro r hr
      cases hr
    · rw [if_neg hav] at h
      cases h
      intro r hr
      simp only [selectCols, List.mem_map] at hr
      obtain ⟨r0, hr0, rfl⟩ := hr
      rw [rowGet_selectRow]
      rw [if_pos (List.mem_cons_of_mem _ hg)]
      have hgmiss : g ∈ genes.filter (fun x => !(genes.filter
          (fun y => src.cols.contains y)).contains x) := by
        rw [List.mem_filter]
        refine ⟨hg, ?_⟩
        simp only [Bool.not_eq_eq_eq_not, Bool.not_true]
        by_cases hin : g ∈ genes.filter (fun y => src.cols.contains y)
        · exfalso
          rw [List.mem_filter] at hin
          exact hgabs (by simpa using hin.2)
        · simpa using hin
      have hk : keysAligned (renameCols
          (selectCols src (cid :: genes.filter (fun y => src.cols.contains y)))
          [(cid, "cell_id")]) :=
        keysAligned_renameCols _ (keysAligned_selectCols _ _)
      exact foldl_addNullCol_null hk hgmiss r0 hr0

theorem longPath_cols_empty {src : DF} {genes : List String}
    (h : (longFilter src genes).isEmpty = true) :
    longPath src genes = { cols := "cell_id" :: genes, rows := [] } := by
  unfold longPath
  rw [if_pos h]

theorem longPath_cols_pivot {src : DF} {genes : List String}
    (h : (longFilter src genes).isEmpty = false) :
    longPath src genes = pivotMean (longFilter src genes) := by
  unfold longPath
  dsimp only
  rw [h]
  simp

/-! ### Claim theorems -/

/-- C5: coordinate-triplet resolution during metadata loading is atomic: a
resolved triplet is one of the declared triplets with all three of its names
present together, so aliases are never composed across triplets; and for the
columns {x, y, ccf_z}, where each name matches some declared triplet but no
triplet is complete, resolution fails with a schema-resolution error (modelled
as `none`), both at `_pick_coord_columns` and through `load_metadata`. -/
theorem C5_coord_resolution_atomic (columns : List String) (t : String × String × String)
    (h : pickCoordColumns columns = some t) :
    (t ∈ DEFAULT_COORD_COLUMN_CANDIDATES ∧
      t.1 ∈ columns ∧ t.2.1 ∈ columns ∧ t.2.2 ∈ columns) ∧
    pickCoordColumns ["x", "y", "ccf_z"] = none ∧
    load_metadata exMixedCoords = none := by
  have hmem := List.mem_of_find?_eq_some h
  have hp := List.find?_some h
  simp only [Bool.and_eq_true] at hp
  refine ⟨⟨hmem, ?_, ?_, ?_⟩, by with_unfolding_all decide, by with_unfolding_all decide⟩
  · simpa using hp.1.1
  · simpa using hp.1.2
  · simpa using hp.2

/-- Witness for C5: the third declared triplet resolves when complete. -/
theorem C5_coord_resolution_atomic_witness :
    ("ccf_x", "ccf_y", "ccf_z") ∈ DEFAULT_COORD_COLUMN_CANDIDATES ∧
    "ccf_x" ∈ ["ccf_x", "ccf_y", "ccf_z"] := by
  have h := C5_coord_resolution_atomic ["ccf_x", "ccf_y", "ccf_z"]
    ("ccf_x", "ccf_y", "ccf_z") (by with_unfolding_all decide)
  exact ⟨h.1.1, h.1.2.1⟩

/-- C8: when no requested gene is among the table's columns,
`summarize_gene_expression` returns the empty frame (pd.DataFrame()) rather
than raising an error. -/
theorem C8_empty_gene_intersection (df : DF) (genes : List String) (group_col : String)
    (h : ∀ g ∈ genes, g ∉ df.cols) :
    summarize_gene_expression df genes group_col = { cols := [], rows := [] } := by
  have hkeep : genes.filter (fun g => df.cols.contains g) = [] := by
    rw [List.filter_eq_nil_iff]
    intro g hg
    simpa using h g hg
  unfold summarize_gene_expression
  rw [hkeep]
  rfl

/-- Witness for C8: summarizing a gene absent from the metadata table. -/
theorem C8_empty_gene_intersection_witness :
    summarize_gene_expression exMetaOne ["Nope"] "region" = { cols := [], rows := [] } :=
  C8_empty_gene_intersection exMetaOne ["Nope"] "region" (by with_unfolding_all decide)

/-- C2 counterexample: a source whose columns are {cell_label, gene,
expression} — a recognized cell-id alias together with the gene and expression
columns — is routed to the wide path, not the long path: detection is false,
and loading gene A returns the empty wide-path frame even though a matching
long-format row (c1, A, 2.0) exists in the source. -/
theorem C2_counterexample :
    pickFirstAvailable exAliasLong.cols DEFAULT_CELL_ID_CANDIDATES = some "cell_label" ∧
    (longFilter exAliasLong ["A"]).length = 1 ∧
    isLongFormat exAliasLong.cols = false ∧
    load_expression_subset exAliasLong ["A"] = some { cols := ["cell_id", "A"], rows := [] } := by
  with_unfolding_all decide

/-- C2 amended: the long-format path is taken exactly when the literal column
names cell_id, gene and expression are all present; cell-id aliases such as
cell_label or cell do not trigger the long path, and any other column set goes
to the wide path. -/
theorem C2_amended (src : DF) (genes : List String)
    (hne : (normalizeGenes genes).isEmpty = false) :
    (("cell_id" ∈ src.cols ∧ "gene" ∈ src.cols ∧ "expression" ∈ src.cols) →
      load_expression_subset src genes = some (longPath src (normalizeGenes genes))) ∧
    (("cell_id" ∉ src.cols ∨ "gene" ∉ src.cols ∨ "expression" ∉ src.cols) →
      load_expression_subset src genes = widePath src (normalizeGenes genes)) := by
  unfold load_expression_subset loadNormalized
  rw [hne]
  constructor
  · rintro ⟨h1, h2, h3⟩
    have hlong : isLongFormat src.cols = true := by
      unfold isLongFormat
      simp [h1, h2, h3]
    simp [hlong]
  · intro hd
    have hlong : isLongFormat src.cols = false := by
      unfold isLongFormat
      rcases hd with h | h | h <;> simp [h]
    simp [hlong]

/-- Witness for C2 amended: a literal long-format source takes the long path. -/
theorem C2_amended_witness :
    load_expression_subset exLongOneGene ["A"] = some (longPath exLongOneGene
      (normalizeGenes ["A"])) :=
  (C2_amended exLongOneGene ["A"] (by with_unfolding_all decide)).1
    (by with_unfolding_all decide)

/-- C3 counterexample: the metadata table has one row for c1, the loaded
expression table lists c1 twice, and the left merge produces two rows — more
than the metadata row count, so the merged table does not always have exactly
as many rows as the metadata table. -/
theorem C3_counterexample :
    load_expression_subset exWideDup ["G"] = some exWideDupLoaded ∧
    exMetaOne.rows.length = 1 ∧
    (appMerged exMetaOne (some exWideDupLoaded)).rows.length = 2 := by
  with_unfolding_all decide

/-- C3 amended: when every metadata row matches at most one expression row
(in particular when the expression cell ids are unique), the left merge has
exactly as many rows as the metadata table; unmatched metadata rows appear
with null gene values, merged rows always carry a metadata cell id (unmatched
expression rows are dropped), and an absent or empty expression table leaves
the metadata unchanged. -/
theorem C3_amended (metadata expression : DF)
    (huniq : ∀ m ∈ metadata.rows,
      (expression.rows.filter (fun e =>
        decide (rowGet e "cell_id" = rowGet m "cell_id"))).length ≤ 1) :
    (mergeLeft metadata expression).rows.length = metadata.rows.length ∧
    appMerged metadata none = metadata ∧
    (expression.isEmpty = true → appMerged metadata (some expression) = metadata) ∧
    (∀ mr ∈ (mergeLeft metadata expression).rows, ∃ m ∈ metadata.rows,
      rowGet mr "cell_id" = rowGet m "cell_id") ∧
    (∀ m ∈ metadata.rows,
      expression.rows.filter (fun e =>
        decide (rowGet e "cell_id" = rowGet m "cell_id")) = [] →
      (m ++ (expression.cols.filter (fun c => c ≠ "cell_id")).map
        (fun c => (c, (none : Cell)))) ∈ (mergeLeft metadata expression).rows) := by
  refine ⟨?_, rfl, ?_, ?_, ?_⟩
  · unfold mergeLeft
    dsimp only
    apply length_flatMap_ones
    intro m hm
    by_cases hhits : (expression.rows.filter (fun e =>
        decide (rowGet e "cell_id" = rowGet m "cell_id"))).isEmpty = true
    · rw [if_pos hhits]
      rfl
    · rw [if_neg hhits]
      rw [List.length_map]
      have hle := huniq m hm
      have hnil : expression.rows.filter (fun e =>
          decide (rowGet e "cell_id" = rowGet m "cell_id")) ≠ [] := by
        simpa using hhits
      have hpos := List.length_pos.mpr hnil
      omega
  · intro hE
    simp [appMerged, hE]
  · intro mr hmr
    unfold mergeLeft at hmr
    dsimp only at hmr
    rw [List.mem_flatMap] at hmr
    obtain ⟨m, hm, hmem⟩ := hmr
    refine ⟨m, hm, ?_⟩
    have hcid : "cell_id" ∉ expression.cols.filter (fun c => c ≠ "cell_id") := by
      simp
    by_cases hhits : (expression.rows.filter (fun e =>
        decide (rowGet e "cell_id" = rowGet m "cell_id"))).isEmpty = true
    · rw [if_pos hhits] at hmem
      rw [List.mem_singleton] at hmem
      subst hmem
      exact rowGet_append_pairs m _ (fun _ => none) hcid
    · rw [if_neg hhits] at hmem
      rw [List.mem_map] at hmem
      obtain ⟨e, _, rfl⟩ := hmem
      exact rowGet_append_pairs m _ (fun c => rowGet e c) hcid
  · intro m hm hfilter
    unfold mergeLeft
    dsimp only
    rw [List.mem_flatMap]
    refine ⟨m, hm, ?_⟩
    rw [hfilter]
    simp

/-- Witness for C3 amended: merging one metadata row with one matching
expression row preserves the row count. -/
theorem C3_amended_witness :
    (mergeLeft exMetaOne exWideOne).rows.length = exMetaOne.rows.length :=
  (C3_amended exMetaOne exWideOne (by with_unfolding_all decide)).1

/-- C9: when a wide-format source contains none of the requested genes, the
loaded expression table has the cell_id column plus one column per normalized
requested gene but zero rows, and the app's merge step then leaves the
metadata table unchanged. -/
theorem C9_wide_empty_result (src metadata : DF) (genes : List String)
    (hwide : isLongFormat src.cols = false)
    (hne : (normalizeGenes genes).isEmpty = false)
    (hcid : (pickFirstAvailable src.cols DEFAULT_CELL_ID_CANDIDATES).isSome = true)
    (habsent : ∀ g ∈ genes, g ∉ src.cols) :
    load_expression_subset src genes =
      some { cols := "cell_id" :: normalizeGenes genes, rows := [] } ∧
    appMerged metadata (some { cols := "cell_id" :: normalizeGenes genes, rows := [] })
      = metadata := by
  constructor
  · unfold load_expression_subset loadNormalized
    rw [hne, hwide]
    simp only [Bool.false_eq_true, if_false]
    unfold widePath
    obtain ⟨cid, hcid'⟩ := Option.isSome_iff_exists.mp hcid
    rw [hcid']
    dsimp only
    have hav : ((normalizeGenes genes).filter (fun g => src.cols.contains g)).isEmpty
        = true := by
      rw [List.isEmpty_iff, List.filter_eq_nil_iff]
      intro g hg
      simpa using habsent g (mem_normalizeGenes.mp hg).1
    rw [if_pos hav]
  · simp [appMerged, DF.isEmpty]

/-- Witness for C9: requesting gene G from a wide source holding only H. -/
theorem C9_wide_empty_result_witness :
    load_expression_subset exWideOther ["G"] =
      some { cols := "cell_id" :: normalizeGenes ["G"], rows := [] } :=
  (C9_wide_empty_result exWideOther exMetaOne ["G"] (by with_unfolding_all decide)
    (by with_unfolding_all decide) (by with_unfolding_all decide)
    (by with_unfolding_all decide)).1

/-- C6: with no region or class filtering active, `filter_cells` keeps exactly
the rows that pass every (gene, threshold) pair whose gene column exists, with
null compared as negative infinity; consequently every surviving row carries a
non-null value at least the threshold for each such gene, so rows with a null
value for a thresholded gene are always removed. -/
theorem C6_gene_threshold_filter (df : DF) (gts : List (String × ℚ)) :
    (filter_cells df [] [] gts).rows = df.rows.filter (genePred df.cols gts) ∧
    (∀ r ∈ (filter_cells df [] [] gts).rows, ∀ gt ∈ gts, gt.1 ∈ df.cols →
      ∃ v : ℚ, rowGet r gt.1 = some (Val.num v) ∧ gt.2 ≤ v) := by
  have h1 : (filter_cells df [] [] gts).rows = df.rows.filter (genePred df.cols gts) := by
    unfold filter_cells
    simp only [List.isEmpty_nil, if_true]
    rw [foldl_thresholdStep_rows]
    rfl
  refine ⟨h1, ?_⟩
  intro r hr gt hgt hcol
  rw [h1, List.mem_filter] at hr
  have hall := hr.2
  unfold genePred at hall
  rw [List.all_eq_true] at hall
  have hgt' := hall gt hgt
  have hcont : df.cols.contains gt.1 = true := by simpa using hcol
  rw [hcont] at hgt'
  simp only [Bool.not_true, Bool.false_or, decide_eq_true_eq] at hgt'
  exact le_fillnaNegInf_iff.mp hgt'

/-- Witness for C6: thresholding G at 2 keeps the measured row with value 5
(and the computation below shows the null row is dropped). -/
theorem C6_gene_threshold_filter_witness :
    ∃ v : ℚ, rowGet exThreshRow1 "G" = some (Val.num v) ∧ (2 : ℚ) ≤ v :=
  (C6_gene_threshold_filter exThresh [("G", 2)]).2 exThreshRow1
    (by with_unfolding_all decide) ("G", 2) (by with_unfolding_all decide)
    (by with_unfolding_all decide)

/-- C7: the three filter dimensions compose as a logical AND of row
predicates; an empty region or class allow-set is a no-op for that dimension
(its predicate is constantly true, and with no filters at all the table is
returned unchanged), while a non-empty allow-set admits only rows whose
region (respectively cell_class) value is in the set. -/
theorem C7_allow_set_semantics (df : DF) (regions classes : List String)
    (gts : List (String × ℚ)) :
    (filter_cells df regions classes gts).cols = df.cols ∧
    (filter_cells df regions classes gts).rows =
      df.rows.filter (fun r => regionPred regions r &&
        (classPred classes r && genePred df.cols gts r)) ∧
    filter_cells df [] [] [] = df ∧
    (regions ≠ [] → ∀ r ∈ (filter_cells df regions classes gts).rows,
      cellIsin (rowGet r "region") regions = true) ∧
    (classes ≠ [] → ∀ r ∈ (filter_cells df regions classes gts).rows,
      cellIsin (rowGet r "cell_class") classes = true) := by
  have hrows : (filter_cells df regions classes gts).rows =
      df.rows.filter (fun r => regionPred regions r &&
        (classPred classes r && genePred df.cols gts r)) := by
    unfold filter_cells
    dsimp only
    by_cases hr : regions.isEmpty = true
    · by_cases hc : classes.isEmpty = true
      · rw [if_pos hr, if_pos hc, foldl_thresholdStep_rows]
        apply List.filter_congr
        intro r _
        unfold regionPred classPred genePred
        rw [hr, hc]
        simp
      · rw [if_pos hr, if_neg hc, foldl_thresholdStep_rows]
        dsimp only
        rw [List.filter_filter]
        apply List.filter_congr
        intro r _
        have hc' : classes.isEmpty = false := by
          revert hc; cases classes.isEmpty <;> simp
        unfold regionPred classPred genePred
        rw [hr, hc']
        simp [Bool.and_comm]
    · by_cases hc : classes.isEmpty = true
      · rw [if_neg hr, if_pos hc, foldl_thresholdStep_rows]
        dsimp only
        rw [List.filter_filter]
        apply List.filter_congr
        intro r _
        have hr' : regions.isEmpty = false := by
          revert hr; cases regions.isEmpty <;> simp
        unfold regionPred classPred genePred
        rw [hr', hc]
        simp [Bool.and_comm]
      · rw [if_neg hr, if_neg hc, foldl_thresholdStep_rows]
        dsimp only
        rw [List.filter_filter, List.filter_filter]
        apply List.filter_congr
        intro r _
        have hr' : regions.isEmpty = false := by
          revert hr; cases regions.isEmpty <;> simp
        have hc' : classes.isEmpty = false := by
          revert hc; cases classes.isEmpty <;> simp
        unfold regionPred classPred genePred
        rw [hr', hc']
        simp [Bool.and_comm, Bool.and_left_comm, Bool.and_assoc]
  have hcols : (filter_cells df regions classes gts).cols = df.cols := by
    unfold filter_cells
    dsimp only
    rw [foldl_thresholdStep_cols]
    by_cases hr : regions.isEmpty = true <;> by_cases hc : classes.isEmpty = true <;>
      simp [hr, hc]
  refine ⟨hcols, hrows, rfl, ?_, ?_⟩
  · intro hne r hr
    rw [hrows, List.mem_filter] at hr
    have hp := hr.2
    rw [Bool.and_eq_true] at hp
    have hregion := hp.1
    unfold regionPred at hregion
    have hie : regions.isEmpty = false := by simpa using hne
    rw [hie] at hregion
    simpa using hregion
  · intro hne r hr
    rw [hrows, List.mem_filter] at hr
    have hp := hr.2
    rw [Bool.and_eq_true] at hp
    have hclass := hp.2
    rw [Bool.and_eq_true] at hclass
    have hclass' := hclass.1
    unfold classPred at hclass'
    have hie : classes.isEmpty = false := by simpa using hne
    rw [hie] at hclass'
    simpa using hclass'

/-- Witness for C7: region filter ["VIS"] admits only rows with region VIS. -/
theorem C7_allow_set_semantics_witness :
    cellIsin (rowGet exThreshRow1 "region") ["VIS"] = true :=
  (C7_allow_set_semantics exThresh ["VIS"] [] []).2.2.2.1 (by with_unfolding_all decide)
    exThreshRow1 (by with_unfolding_all decide)

/-- C10: `load_expression_subset` normalizes its requested genes before any
other processing: two requests naming the same set of non-empty genes —
regardless of order, duplicates or empty-string entries — load identical
tables, and the gene columns of any result appear in sorted name order. -/
theorem C10_gene_normalization (src : DF) (g1 g2 : List String)
    (h : ∀ g, g ≠ "" → (g ∈ g1 ↔ g ∈ g2)) :
    load_expression_subset src g1 = load_expression_subset src g2 ∧
    (∀ df, load_expression_subset src g1 = some df →
      List.Sorted (· ≤ ·) df.cols.tail) := by
  have hnorm := normalizeGenes_congr h
  constructor
  · unfold load_expression_subset
    rw [hnorm]
  · intro df hdf
    unfold load_expression_subset loadNormalized at hdf
    by_cases hgene : (normalizeGenes g1).isEmpty = true
    · rw [if_pos hgene, Option.some_inj] at hdf
      subst hdf
      exact List.sorted_nil
    · rw [if_neg hgene] at hdf
      by_cases hlong : isLongFormat src.cols = true
      · rw [if_pos hlong, Option.some_inj] at hdf
        subst hdf
        by_cases hemp : (longFilter src (normalizeGenes g1)).isEmpty = true
        · rw [longPath_cols_empty hemp]
          exact sorted_normalizeGenes g1
        · have hemp' : (longFilter src (normalizeGenes g1)).isEmpty = false := by
            revert hemp; cases (longFilter src (normalizeGenes g1)).isEmpty <;> simp
          rw [longPath_cols_pivot hemp']
          unfold pivotMean
          dsimp only
          exact sorted_pivotGenes (longFilter src (normalizeGenes g1))
      · rw [if_neg hlong] at hdf
        rw [widePath_some_cols hdf]
        exact sorted_normalizeGenes g1

/-- Witness for C10: the requests (G, empty, G) and (G) load the same table. -/
theorem C10_gene_normalization_witness :
    load_expression_subset exWideOne ["G", "", "G"] =
      load_expression_subset exWideOne ["G"] :=
  (C10_gene_normalization exWideOne ["G", "", "G"] ["G"] (by
    intro g hg
    simp only [List.mem_cons, List.not_mem_nil, or_false]
    constructor
    · rintro (rfl | rfl | rfl)
      · rfl
      · exact absurd rfl hg
      · rfl
    · rintro rfl
      exact Or.inl rfl)).1

/-- C4: in the long-format path the pivot (with `pivot_table`'s default
`dropna=True`) produces one row per distinct cell id and one column per
distinct gene among the contributing kept rows — those with a non-null cell
id, a string gene and a non-null numeric expression value — and each entry is
the arithmetic mean of the expression values recorded for that (cell, gene)
pair, so duplicate pairs are silently averaged rather than raising.  Under
the long-format schema the spec declares (cell and gene strings, expression
numeric), every kept row contributes, and the row/column sets are exactly
the distinct cell ids and genes of the kept rows.  The witness instantiates
this at the duplicate probes (c1, GeneA, 2.0) and (c1, GeneA, 4.0), pivoting
to 3.0. -/
theorem C4_long_pivot_mean (src df : DF) (genes : List String)
    (hlong : isLongFormat src.cols = true)
    (hne : (normalizeGenes genes).isEmpty = false)
    (hkept : (longFilter src (normalizeGenes genes)).isEmpty = false)
    (hload : load_expression_subset src genes = some df)
    (hnc : "cell_id" ∉ pivotGenes (longFilter src (normalizeGenes genes))) :
    df.cols = "cell_id" :: pivotGenes (longFilter src (normalizeGenes genes)) ∧
    (pivotGenes (longFilter src (normalizeGenes genes))).Nodup ∧
    (∀ g, g ∈ pivotGenes (longFilter src (normalizeGenes genes)) ↔
      ∃ r ∈ longFilter src (normalizeGenes genes),
        aggRow r = true ∧ rowGet r "gene" = some (Val.str g)) ∧
    df.rows.length = (pivotCellIds (longFilter src (normalizeGenes genes))).length ∧
    (pivotCellIds (longFilter src (normalizeGenes genes))).Nodup ∧
    (∀ c, c ∈ pivotCellIds (longFilter src (normalizeGenes genes)) ↔
      ∃ r ∈ longFilter src (normalizeGenes genes),
        aggRow r = true ∧ rowGet r "cell_id" = c) ∧
    ((∀ r ∈ longFilter src (normalizeGenes genes), aggRow r = true) →
      (∀ g, g ∈ pivotGenes (longFilter src (normalizeGenes genes)) ↔
        ∃ r ∈ longFilter src (normalizeGenes genes),
          rowGet r "gene" = some (Val.str g)) ∧
      (∀ c, c ∈ pivotCellIds (longFilter src (normalizeGenes genes)) ↔
        c.isSome = true ∧ ∃ r ∈ longFilter src (normalizeGenes genes),
          rowGet r "cell_id" = c)) ∧
    (∀ r ∈ df.rows, ∀ g ∈ pivotGenes (longFilter src (normalizeGenes genes)),
      rowGet r g = meanOpt (valuesFor (longFilter src (normalizeGenes genes))
        (rowGet r "cell_id") g)) := by
  unfold load_expression_subset loadNormalized at hload
  rw [hne, hlong] at hload
  simp only [Bool.false_eq_true, if_false, eq_self_iff_true, if_true] at hload
  rw [longPath_cols_pivot hkept, Option.some_inj] at hload
  subst hload
  refine ⟨rfl, nodup_pivotGenes _, fun g => mem_pivotGenes, ?_, nodup_pivotCellIds _,
    fun c => mem_pivotCellIds, ?_, ?_⟩
  · unfold pivotMean
    dsimp only
    rw [List.length_map]
  · intro hagg
    constructor
    · intro g
      rw [mem_pivotGenes]
      constructor
      · rintro ⟨r, hr, -, hrg⟩
        exact ⟨r, hr, hrg⟩
      · rintro ⟨r, hr, hrg⟩
        exact ⟨r, hr, hagg r hr, hrg⟩
    · intro c
      rw [mem_pivotCellIds]
      constructor
      · rintro ⟨r, hr, hr2, hc⟩
        refine ⟨?_, r, hr, hc⟩
        unfold aggRow at hr2
        rw [Bool.and_eq_true] at hr2
        rw [hc] at hr2
        exact hr2.1
      · rintro ⟨hs, r, hr, hc⟩
        exact ⟨r, hr, hagg r hr, hc⟩
  · intro r hr g hg
    unfold pivotMean at hr
    dsimp only at hr
    rw [List.mem_map] at hr
    obtain ⟨cid, hcid, rfl⟩ := hr
    have hgne : g ≠ "cell_id" := fun hgc => hnc (hgc ▸ hg)
    have hbeq : (g == "cell_id") = false := beq_eq_false_iff_ne.mpr hgne
    have hcell : rowGet (("cell_id", cid) :: (pivotGenes (longFilter src
        (normalizeGenes genes))).map (fun g2 => (g2, meanOpt (valuesFor (longFilter src
        (normalizeGenes genes)) cid g2)))) "cell_id" = cid := by
      simp [rowGet, List.lookup]
    rw [hcell]
    simp only [rowGet, List.lookup, hbeq]
    rw [lookup_map_pair (fun g2 => meanOpt (valuesFor (longFilter src
      (normalizeGenes genes)) cid g2)) _ g, if_pos hg]
    rfl

/-- Witness for C4 at the duplicate-probe source: the loaded row carries the
mean of the duplicates, which evaluates to 3.0. -/
theorem C4_long_pivot_mean_witness :
    rowGet exLongDupLoadedRow "GeneA" = meanOpt (valuesFor (longFilter exLongDup
      (normalizeGenes ["GeneA"])) (rowGet exLongDupLoadedRow "cell_id") "GeneA") ∧
    rowGet exLongDupLoadedRow "GeneA" = some (Val.num 3) := by
  have h := C4_long_pivot_mean exLongDup exLongDupLoaded ["GeneA"]
    (by with_unfolding_all decide) (by with_unfolding_all decide)
    (by with_unfolding_all decide) (by with_unfolding_all decide)
    (by with_unfolding_all decide)
  refine ⟨?_, by with_unfolding_all decide⟩
  exact h.2.2.2.2.2.2.2 exLongDupLoadedRow (by with_unfolding_all decide) "GeneA"
    (by with_unfolding_all decide)

/-- C1 counterexample: loading genes {A, B} from a long-format source that
holds only gene A yields the columns [cell_id, A]: the requested gene B is a
missing column, not a column of nulls, and the columns are not in requested
order (B, A was requested), so the format-transparency invariant fails. -/
theorem C1_counterexample :
    (load_expression_subset exLongOneGene ["B", "A"]).map DF.cols =
      some ["cell_id", "A"] ∧
    "B" ∉ (["cell_id", "A"] : List String) := by
  with_unfolding_all decide

/-- C1 amended: the result always starts with cell_id followed by a sorted
(not request-ordered) subset of the normalized requested genes.  In the wide
path the columns are exactly cell_id plus every normalized requested gene and
a requested gene absent from the source is a column of nulls.  In the long
path with at least one kept row, a requested gene appearing in no kept row is
a missing column — absent from the gene columns entirely, not null-padded;
only when no requested gene matches at all does every normalized gene appear
as a column of an empty table. -/
theorem C1_amended (src df : DF) (genes : List String)
    (hload : load_expression_subset src genes = some df)
    (hne : (normalizeGenes genes).isEmpty = false) :
    df.cols.head? = some "cell_id" ∧
    List.Sorted (· ≤ ·) df.cols.tail ∧
    df.cols.tail ⊆ normalizeGenes genes ∧
    (isLongFormat src.cols = false →
      df.cols = "cell_id" :: normalizeGenes genes ∧
      ∀ g ∈ normalizeGenes genes, g ∉ src.cols → ∀ r ∈ df.rows, rowGet r g = none) ∧
    (isLongFormat src.cols = true →
      (longFilter src (normalizeGenes genes)).isEmpty = true →
      df.cols = "cell_id" :: normalizeGenes genes ∧ df.rows = []) ∧
    (isLongFormat src.cols = true →
      (longFilter src (normalizeGenes genes)).isEmpty = false →
      ∀ g, (∀ r ∈ longFilter src (normalizeGenes genes),
        rowGet r "gene" ≠ some (Val.str g)) → g ∉ df.cols.tail) := by
  unfold load_expression_subset loadNormalized at hload
  rw [hne] at hload
  simp only [Bool.false_eq_true, if_false] at hload
  by_cases hlong : isLongFormat src.cols = true
  · rw [if_pos hlong, Option.some_inj] at hload
    subst hload
    by_cases hemp : (longFilter src (normalizeGenes genes)).isEmpty = true
    · rw [longPath_cols_empty hemp]
      refine ⟨rfl, sorted_normalizeGenes genes, fun g hg => hg, ?_, ?_, ?_⟩
      · intro hwide
        rw [hlong] at hwide
        cases hwide
      · intro _ _
        exact ⟨rfl, rfl⟩
      · intro _ hne2
        rw [hemp] at hne2
        cases hne2
    · have hemp' : (longFilter src (normalizeGenes genes)).isEmpty = false := by
        revert hemp; cases (longFilter src (normalizeGenes genes)).isEmpty <;> simp
      rw [longPath_cols_pivot hemp']
      refine ⟨rfl, ?_, ?_, ?_, ?_, ?_⟩
      · unfold pivotMean
        dsimp only
        exact sorted_pivotGenes _
      · unfold pivotMean
        dsimp only
        exact fun g hg => mem_normalizeGenes.mpr
          ⟨(mem_normalizeGenes.mp (pivotGenes_longFilter_subset src _ hg)).1,
           (mem_normalizeGenes.mp (pivotGenes_longFilter_subset src _ hg)).2⟩
      · intro hwide
        rw [hlong] at hwide
        cases hwide
      · intro _ hempty
        rw [hemp'] at hempty
        cases hempty
      · intro _ _ g hgabs hgmem
        unfold pivotMean at hgmem
        dsimp only at hgmem
        rw [List.tail_cons] at hgmem
        obtain ⟨r, hr, -, hrg⟩ := mem_pivotGenes.mp hgmem
        exact hgabs r hr hrg
  · rw [if_neg hlong] at hload
    have hcols := widePath_some_cols hload
    rw [hcols]
    have hlong' : isLongFormat src.cols = false := by
      revert hlong; cases isLongFormat src.cols <;> simp
    refine ⟨rfl, sorted_normalizeGenes genes, fun g hg => hg, ?_, ?_, ?_⟩
    · intro _
      exact ⟨rfl, fun g hg hgabs => widePath_absent_null hload g hg hgabs⟩
    · intro hcontra
      rw [hlong'] at hcontra
      cases hcontra
    · intro hcontra
      rw [hlong'] at hcontra
      cases hcontra

/-- Witness for C1 amended at a wide source: the loaded table starts with
cell_id and the requested-but-absent gene G reads as null on the loaded row. -/
theorem C1_amended_witness :
    exWideOtherLoaded.cols.head? = some "cell_id" ∧
    rowGet exWideOtherLoadedRow "G" = none := by
  have h := C1_amended exWideOther exWideOtherLoaded ["G", "H"]
    (by with_unfolding_all decide) (by with_unfolding_all decide)
  refine ⟨h.1, ?_⟩
  exact (h.2.2.2.1 (by with_unfolding_all decide)).2 "G" (by with_unfolding_all decide)
    (by with_unfolding_all decide) exWideOtherLoadedRow (by with_unfolding_all decide)

end Vulneromics
